import Mathlib

set_option maxHeartbeats 1000000

/-!
Shallow embedding of the background job manager of `src/jobs/manager.py`
(class `JobManager` and the `JobStatus` enum), together with theorems about
its behaviour.

Modelling conventions:
* The jobs directory is a finite association list from directory name to the
  directory's contents (metadata file, log file, results directory).  The
  list order models the arbitrary `iterdir`/`glob` enumeration order of the
  filesystem.
* `uuid.uuid4()` draws and `datetime.now()` readings are nondeterministic
  inputs, so the corresponding operations take them as explicit parameters
  (timestamps are the `isoformat` strings the code stores).
* The supervisor thread started by `_start_job` is modelled as explicit
  steps (`svStart`, `svRegister`, `svFinish`) that are interleaved with the
  public operations; the worker process itself is opaque and its observable
  outcome (exit code, or an exception while launching/waiting) is the
  `LaunchOutcome` input of `svFinish`.
* A Python exception escaping a public operation is modelled by a dedicated
  `raised` constructor of the operation's result type.
-/

namespace EsmfoldJobs

/-- JSON-like values, the results of `json.load` on a worker result file. -/
inductive JVal where
  | null
  | bool (b : Bool)
  | num (n : Int)
  | str (s : String)
  | arr (xs : List JVal)
  | obj (fields : List (String × JVal))

/-- Mirrors the `JobStatus` enum of `src/jobs/manager.py` lines 14-19. -/
inductive JobStatus where
  | pending
  | running
  | completed
  | failed
  | cancelled
deriving DecidableEq

/-- The `.value` string of each enum member. -/
def JobStatus.value : JobStatus → String
  | .pending => "pending"
  | .running => "running"
  | .completed => "completed"
  | .failed => "failed"
  | .cancelled => "cancelled"

/-- The metadata record created by `JobManager.submit_job` (lines 50-60).
`args` values are the `str(value)` renderings of the Python values, with
`none` standing for Python `None`; the mapping keeps insertion order, as a
Python dict does. -/
structure Metadata where
  job_id : String
  job_name : String
  script : String
  args : List (String × Option String)
  status : String
  submitted_at : Option String
  started_at : Option String
  completed_at : Option String
  error : Option String
deriving DecidableEq

/-- Outcome of `json.load` on one result file. -/
inductive ParseOutcome where
  | ok (v : JVal)
  | failed (msg : String)

/-- One `*.json` file of a job's results directory: `stem` is the file name
without its `.json` extension (distinct files have distinct stems), `parsed`
the outcome of parsing it. -/
structure ResultFile where
  stem : String
  parsed : ParseOutcome

/-- State of a job directory's `metadata.json`: missing, present but failing
to parse, or present with a well-formed record. -/
inductive MetaFile where
  | absent
  | corrupt
  | good (m : Metadata)
deriving DecidableEq

/-- Contents of one job directory: the metadata file, the `job.log` file
(`some lines` when it exists), and the `results` directory (`some files`,
listing its `*.json` files in enumeration order, when it exists). -/
structure JobDirState where
  meta : MetaFile
  log : Option (List String)
  results : Option (List ResultFile)

/-- A job directory as `submit_job`'s `mkdir` first creates it. -/
def emptyDir : JobDirState := ⟨.absent, none, none⟩

/-- State of a `JobManager` instance plus the filesystem it owns:
`jobsPath` the `jobs_dir` path string, `dirs` the job directories keyed by
name, `running` the keys of the in-memory `_running_jobs` dict, and `terms`
the log of `terminate()` requests issued so far (event history, appended on
each `.terminate()` call). -/
structure ManagerState where
  jobsPath : String
  dirs : List (String × JobDirState)
  running : List String
  terms : List String

/-- Look a directory up by name (first match). -/
def lookupDir : List (String × JobDirState) → String → Option JobDirState
  | [], _ => none
  | (k, v) :: rest, jid => if k = jid then some v else lookupDir rest jid

/-- Overwrite (or create) the directory entry named `jid`. -/
def setDir : List (String × JobDirState) → String → JobDirState → List (String × JobDirState)
  | [], jid, d => [(jid, d)]
  | (k, v) :: rest, jid, d =>
      if k = jid then (k, d) :: rest else (k, v) :: setDir rest jid d

def getDir (st : ManagerState) (jid : String) : Option JobDirState :=
  lookupDir st.dirs jid

/-- `_save_metadata` (lines 240-245): creates the job directory if needed and
overwrites `metadata.json` with the full record. -/
def saveMeta (st : ManagerState) (jid : String) (m : Metadata) : ManagerState :=
  let d := (getDir st jid).getD emptyDir
  { st with dirs := setDir st.dirs jid { d with meta := .good m } }

/-- `_load_metadata` (lines 247-256): `none` when the file is missing or
fails to parse. -/
def loadMeta (st : ManagerState) (jid : String) : Option Metadata :=
  match getDir st jid with
  | some d =>
      match d.meta with
      | .good m => some m
      | _ => none
  | none => none

/-- `job_dir.mkdir(parents=True, exist_ok=True)`: create the directory when
absent, keep its contents when present. -/
def ensureDir (st : ManagerState) (jid : String) : ManagerState :=
  match getDir st jid with
  | some _ => st
  | none => { st with dirs := st.dirs ++ [(jid, emptyDir)] }

/-- Path string of a job's `results` subdirectory. -/
def resultsPath (st : ManagerState) (jid : String) : String :=
  st.jobsPath ++ "/" ++ jid ++ "/results"

/-- What `submit_job` returns (the human-readable `message` field is not
modelled). -/
structure SubmitOut where
  status : String
  job_id : String
deriving DecidableEq

/-- Python `x or y` for an optional string `x`: the fallback is taken both
on `None` and on the falsy empty string. -/
def orElseFalsy (x : Option String) (y : String) : String :=
  match x with
  | none => y
  | some s => if s = "" then y else s

/-- `JobManager.submit_job` (lines 29-71), with the `uuid.uuid4()` draw and
the clock reading as explicit inputs.  The job id is the first 8 characters
of the uuid string (`str(uuid.uuid4())[:8]`); the stored name is
`job_name or f"job_{job_id}"`, falling back on `None` and on the empty
string.  Starting the supervisor thread is modelled by the separate
`svStart`/`svRegister`/`svFinish` steps. -/
def submit_job (st : ManagerState) (uuid now script : String)
    (args : List (String × Option String)) (job_name : Option String) :
    ManagerState × SubmitOut :=
  let job_id := uuid.take 8
  let st1 := ensureDir st job_id
  let m : Metadata :=
    { job_id := job_id
      job_name := orElseFalsy job_name ("job_" ++ job_id)
      script := script
      args := args
      status := JobStatus.pending.value
      submitted_at := some now
      started_at := none
      completed_at := none
      error := none }
  (saveMeta st1 job_id m, ⟨"submitted", job_id⟩)

/-- The condensed record view `get_job_status` builds (lines 130-140); the
`error` key is present (outer `some`) only when the status is `failed`. -/
structure StatusView where
  job_id : String
  job_name : String
  status : String
  submitted_at : Option String
  started_at : Option String
  completed_at : Option String
  error : Option (Option String)
deriving DecidableEq

inductive StatusOut where
  | ok (v : StatusView)
  | err (e : String)
deriving DecidableEq

/-- `JobManager.get_job_status` (lines 124-142). -/
def get_job_status (st : ManagerState) (jid : String) : StatusOut :=
  match loadMeta st jid with
  | none => .err ("Job " ++ jid ++ " not found")
  | some m =>
      .ok ⟨jid, m.job_name, m.status, m.submitted_at, m.started_at, m.completed_at,
        if m.status = JobStatus.failed.value then some m.error else none⟩

structure ResultView where
  output_directory : String
  result_files : List String
  data : List (String × JVal)

inductive ResultOut where
  | ok (v : ResultView)
  | err (e : String)

/-- The parse loop of `get_job_result` (lines 165-169): parse the result
files in order, aborting at the first `json.JSONDecodeError`. -/
def parseAll : List ResultFile → Except String (List (String × JVal))
  | [] => .ok []
  | f :: fs =>
      match f.parsed with
      | .failed msg => .error msg
      | .ok v =>
          match parseAll fs with
          | .error e => .error e
          | .ok rest => .ok ((f.stem, v) :: rest)

/-- The `results` directory of a job, `none` when it does not exist. -/
def dirResults (st : ManagerState) (jid : String) : Option (List ResultFile) :=
  match getDir st jid with
  | some d => d.results
  | none => none

/-- `JobManager.get_job_result` (lines 144-185). -/
def get_job_result (st : ManagerState) (jid : String) : ResultOut :=
  match loadMeta st jid with
  | none => .err ("Job " ++ jid ++ " not found")
  | some m =>
      if m.status ≠ JobStatus.completed.value then
        .err ("Job not completed. Current status: " ++ m.status)
      else
        match dirResults st jid with
        | none => .err "Results directory not found"
        | some files =>
            if files.isEmpty then .err "No result files found in output directory"
            else
              match parseAll files with
              | .error e => .err ("Failed to parse output JSON: " ++ e)
              | .ok data =>
                  .ok ⟨resultsPath st jid,
                    files.map (fun f => resultsPath st jid ++ "/" ++ f.stem ++ ".json"),
                    data⟩

inductive LogOut where
  | ok (log_lines : List String) (total_lines : Nat)
  | err (e : String)
deriving DecidableEq

/-- Python `xs[i:]` for an `int` index `i`: a negative start counts from the
end (clamped at 0), a non-negative start is clamped at the length. -/
def pySliceFrom (i : Int) (xs : List α) : List α :=
  let n : Int := xs.length
  let start : Int := if i < 0 then max (n + i) 0 else min i n
  xs.drop start.toNat

/-- The `job.log` lines of a job, `none` when the file does not exist. -/
def dirLog (st : ManagerState) (jid : String) : Option (List String) :=
  match getDir st jid with
  | some d => d.log
  | none => none

/-- `JobManager.get_job_log` (lines 187-206): `lines[-tail:] if tail else
lines`, so `tail = 0` (falsy) yields every line. -/
def get_job_log (st : ManagerState) (jid : String) (tail : Int) : LogOut :=
  match dirLog st jid with
  | none => .err ("Log not found for job " ++ jid)
  | some lines =>
      .ok (if tail ≠ 0 then pySliceFrom (-tail) lines else lines) lines.length

inductive CancelOut where
  | success (message : String)
  | err (e : String)
  | raised (msg : String)
deriving DecidableEq

/-- `JobManager.cancel_job` (lines 208-218).  When the job is in
`_running_jobs` the code calls `.terminate()` (recorded in `terms`), then
runs `metadata["status"] = ...` on whatever `_load_metadata` returned — a
`TypeError` escapes uncaught when that was `None` (`raised`). -/
def cancel_job (st : ManagerState) (jid now : String) : ManagerState × CancelOut :=
  if jid ∈ st.running then
    let st1 := { st with terms := st.terms ++ [jid] }
    match loadMeta st1 jid with
    | none => (st1, .raised "TypeError: NoneType object does not support item assignment")
    | some m =>
        let m1 := { m with status := JobStatus.cancelled.value, completed_at := some now }
        (saveMeta st1 jid m1, .success ("Job " ++ jid ++ " cancelled"))
  else (st, .err ("Job " ++ jid ++ " not running"))

/-- Observable outcome of launching the worker and waiting on it: a normal
exit with a code, or a Python exception (carrying `str(e)`) anywhere in the
`try` block. -/
inductive LaunchOutcome where
  | exited (code : Int)
  | exc (msg : String)
deriving DecidableEq

/-- First step of `run_job` (lines 76-79): reload the record, mark it
running, persist.  When `_load_metadata` returns `None` the thread raises
before the `try` block and dies with no state change (`none` result means
the supervisor is gone). -/
def svStart (st : ManagerState) (jid now : String) : ManagerState × Option Metadata :=
  match loadMeta st jid with
  | none => (st, none)
  | some m =>
      let m1 := { m with status := JobStatus.running.value, started_at := some now }
      (saveMeta st jid m1, some m1)

/-- `self._running_jobs[job_id] = process` (line 101), reached only when
`Popen` succeeded. -/
def svRegister (st : ManagerState) (jid : String) : ManagerState :=
  if jid ∈ st.running then st else { st with running := st.running ++ [jid] }

/-- Outcome classification of `run_job` (lines 104-114) applied to the
supervisor's local `metadata` dict. -/
def classifyOutcome (m : Metadata) (o : LaunchOutcome) : Metadata :=
  match o with
  | .exited c =>
      if c = 0 then { m with status := JobStatus.completed.value }
      else
        { m with status := JobStatus.failed.value
                 error := some ("Process exited with code " ++ toString c) }
  | .exc msg => { m with status := JobStatus.failed.value, error := some msg }

/-- The classification plus the `finally` block (lines 104-119): stamp
`completed_at`, persist the supervisor's local record, pop the job from
`_running_jobs` (a no-op when the launch failed before registration). -/
def svFinish (st : ManagerState) (jid : String) (m : Metadata) (o : LaunchOutcome)
    (now : String) : ManagerState :=
  let m1 := { classifyOutcome m o with completed_at := some now }
  let st1 := saveMeta st jid m1
  { st1 with running := st1.running.erase jid }

/-- `mamba run -p ./env_esmfold python script` plus the argument list built
from the args mapping (lines 83-90): each key with a non-`None` value
contributes the two tokens `--key` and `str(value)`, then `--output` and the
results path are appended. -/
def buildCmd (script : String) (args : List (String × Option String))
    (output_dir : String) : List String :=
  let cmd := ["mamba", "run", "-p", "./env_esmfold", "python", script]
  let cmd := args.foldl
    (fun c kv =>
      match kv.2 with
      | some v => c ++ ["--" ++ kv.1, v]
      | none => c) cmd
  cmd ++ ["--output", output_dir]

/-! ### String ordering, timestamps, and `list_jobs` -/

/-- Python's three-way string comparison: lexicographic over code points,
with a strict prefix comparing less. -/
def pyCmp : List Char → List Char → Ordering
  | [], [] => .eq
  | [], _ :: _ => .lt
  | _ :: _, [] => .gt
  | a :: as, b :: bs =>
      if a.toNat < b.toNat then .lt
      else if b.toNat < a.toNat then .gt
      else pyCmp as bs

/-- A pending-style record used by concrete witnesses. -/
def exMeta : Metadata :=
  { job_id := "job1", job_name := "job_job1", script := "s.py", args := []
    status := JobStatus.running.value, submitted_at := some "2026-01-01T00:00:00"
    started_at := some "2026-01-01T00:00:01", completed_at := none, error := none }

/-- A state with one supervised running job. -/
def exRunState : ManagerState :=
  ⟨"/jobs", [("job1", ⟨.good exMeta, some ["a", "b"], none⟩)], ["job1"], []⟩

/-- A state whose job `deadbeef` is in the live table while its
`metadata.json` fails to parse. -/
def corruptLiveState : ManagerState :=
  ⟨"/jobs", [("deadbeef", ⟨.corrupt, none, none⟩)], ["deadbeef"], []⟩

/-- A fresh manager over an empty jobs directory. -/
def st0 : ManagerState := ⟨"/jobs", [], [], []⟩

/-- Trace: submit a job (id `cafe0123`). -/
def traceS1 : ManagerState :=
  (submit_job st0 "cafe0123-0000-4000-8000-000000000000" "2026-01-01T00:00:00"
    "s.py" [] none).1

/-- Trace: the supervisor marks it running. -/
def traceS2 : ManagerState := (svStart traceS1 "cafe0123" "2026-01-01T00:00:01").1

/-- Trace: the worker process is launched and registered in the live table. -/
def traceS3 : ManagerState := svRegister traceS2 "cafe0123"

/-- Trace: first cancel, while the worker has not exited. -/
def traceS4 : ManagerState := (cancel_job traceS3 "cafe0123" "2026-01-01T00:00:02").1

/-- Trace: second cancel on the same still-live job. -/
def traceS5 : ManagerState := (cancel_job traceS4 "cafe0123" "2026-01-01T00:00:03").1

/-- A state with one job whose log holds two lines. -/
def logState : ManagerState :=
  ⟨"/jobs", [("j1", ⟨.absent, some ["line a", "line b"], none⟩)], [], []⟩

/-- The last `k` lines of `xs` (none when `k ≤ 0`): the reading of the
claim's "the last `min(tail, total_lines)` lines". -/
def lastLines (k : Int) (xs : List String) : List String :=
  xs.drop ((xs.length : Int) - max k 0).toNat

/-- The parsed value of a result file, defaulting to `null` (used only to
state which value each well-parsed file contributes). -/
def parsedOr (f : ResultFile) : JVal :=
  match f.parsed with
  | .ok v => v
  | .failed _ => .null

/-- A completed job with one well-formed result file `out.json`. -/
def exDoneMeta : Metadata :=
  { exMeta with status := JobStatus.completed.value,
                completed_at := some "2026-01-01T00:00:02" }

def exDoneState : ManagerState :=
  ⟨"/jobs",
    [("job1", ⟨.good exDoneMeta, some ["line a"],
      some [⟨"out", .ok (.obj [("x", .num 1)])⟩]⟩)], [], []⟩

theorem lookupDir_setDir_self (dirs : List (String × JobDirState)) (jid : String)
    (d : JobDirState) : lookupDir (setDir dirs jid d) jid = some d := by
  induction dirs with
  | nil => simp [setDir, lookupDir]
  | cons hd tl ih =>
      obtain ⟨k, v⟩ := hd
      by_cases h : k = jid
      · simp [setDir, lookupDir, h]
      · simp [setDir, lookupDir, h, ih]

theorem lookupDir_setDir_ne (dirs : List (String × JobDirState)) (jid k : String)
    (d : JobDirState) (h : k ≠ jid) :
    lookupDir (setDir dirs jid d) k = lookupDir dirs k := by
  have hne : jid ≠ k := fun hh => h hh.symm
  induction dirs with
  | nil => simp [setDir, lookupDir, hne]
  | cons hd tl ih =>
      obtain ⟨k', v⟩ := hd
      by_cases h' : k' = jid
      · subst h'
        simp [setDir, lookupDir, hne]
      · simp [setDir, lookupDir, h', ih]

theorem loadMeta_saveMeta_self (st : ManagerState) (jid : String) (m : Metadata) :
    loadMeta (saveMeta st jid m) jid = some m := by
  simp [loadMeta, saveMeta, getDir, lookupDir_setDir_self]

theorem saveMeta_running (st : ManagerState) (jid : String) (m : Metadata) :
    (saveMeta st jid m).running = st.running := rfl

theorem saveMeta_terms (st : ManagerState) (jid : String) (m : Metadata) :
    (saveMeta st jid m).terms = st.terms := rfl

theorem loadMeta_set_terms (st : ManagerState) (jid : String) (ts : List String) :
    loadMeta { st with terms := ts } jid = loadMeta st jid := rfl

theorem loadMeta_set_running (st : ManagerState) (jid : String) (r : List String) :
    loadMeta { st with running := r } jid = loadMeta st jid := rfl

/-! ### C2 — worker command line -/

/-- The accumulator form of the argument-building loop of `_start_job`. -/
theorem buildCmd_foldl (args : List (String × Option String)) (acc : List String) :
    (args.foldl
      (fun c kv =>
        match kv.2 with
        | some v => c ++ ["--" ++ kv.1, v]
        | none => c) acc)
      = acc ++ args.flatMap (fun kv =>
          match kv.2 with
          | some v => ["--" ++ kv.1, v]
          | none => []) := by
  induction args generalizing acc with
  | nil => simp
  | cons hd tl ih =>
      obtain ⟨k, v?⟩ := hd
      cases v? <;> simp [ih, List.append_assoc]

/-- C2 (counterexample): for the args mapping `{"flag": ""}` the claim says the
command line gets the single bare token `--flag` with no value token after it,
i.e. the worker argument list would be `--flag` directly followed by the
injected `--output` pair; the code instead emits `--flag` followed by an empty
value token (`str("") = ""` is appended because `""` is not `None`). -/
theorem claim2_counterexample :
    buildCmd "scripts/protein_embeddings.py" [("flag", some "")] "/jobs/j1/results" =
      ["mamba", "run", "-p", "./env_esmfold", "python", "scripts/protein_embeddings.py",
        "--flag", "", "--output", "/jobs/j1/results"] ∧
    buildCmd "scripts/protein_embeddings.py" [("flag", some "")] "/jobs/j1/results" ≠
      ["mamba", "run", "-p", "./env_esmfold", "python", "scripts/protein_embeddings.py",
        "--flag", "--output", "/jobs/j1/results"] := by
  refine ⟨rfl, by decide⟩

/-- C2 (amended): the worker command line is the fixed program prefix, then,
for each key in mapping order, nothing when its value is null and otherwise
the two tokens `--name` and the value's string rendering — an empty-string
value therefore yields `--name` followed by an empty value token, not a bare
flag — then the injected `--output` pair pointing at the results area. -/
theorem claim2_amended_cmd_layout (script : String) (args : List (String × Option String))
    (out : String) :
    buildCmd script args out =
      ["mamba", "run", "-p", "./env_esmfold", "python", script] ++
        (args.flatMap (fun kv =>
          match kv.2 with
          | some v => ["--" ++ kv.1, v]
          | none => [])) ++ ["--output", out] := by
  simp [buildCmd, buildCmd_foldl]

/-! ### C5 — supervisor outcome classification -/

/-- C5: after the worker exits, exit code 0 yields `completed`; a non-zero
code yields `failed` with an error string containing the code; an exception
while launching or waiting yields `failed` with the exception text as error.
`completed_at` is stamped by the `finally` block in every case, and the
record persisted is derived from the supervisor's local copy `m`. -/
theorem claim5_outcome_classification (st : ManagerState) (jid : String) (m : Metadata)
    (now : String) :
    (loadMeta (svFinish st jid m (.exited 0) now) jid =
      some { m with status := JobStatus.completed.value, completed_at := some now }) ∧
    (∀ c : Int, c ≠ 0 →
      ∃ emsg, loadMeta (svFinish st jid m (.exited c) now) jid =
          some { m with status := JobStatus.failed.value, error := some emsg,
                        completed_at := some now } ∧
        ∃ pre post, emsg = pre ++ toString c ++ post) ∧
    (∀ msg : String,
      ∃ emsg, loadMeta (svFinish st jid m (.exc msg) now) jid =
          some { m with status := JobStatus.failed.value, error := some emsg,
                        completed_at := some now } ∧
        ∃ pre post, emsg = pre ++ msg ++ post) := by
  refine ⟨?_, ?_, ?_⟩
  · simp [svFinish, classifyOutcome, loadMeta_set_running, loadMeta_saveMeta_self]
  · intro c hc
    refine ⟨"Process exited with code " ++ toString c, ?_, "Process exited with code ", "", by simp⟩
    simp [svFinish, classifyOutcome, hc, loadMeta_set_running, loadMeta_saveMeta_self]
  · intro msg
    refine ⟨msg, ?_, "", "", by simp⟩
    simp [svFinish, classifyOutcome, loadMeta_set_running, loadMeta_saveMeta_self]

/-- C5 witness: concrete instantiation at exit code 3. -/
theorem claim5_witness :
    ∃ emsg, loadMeta (svFinish exRunState "job1" exMeta (.exited 3) "2026-01-01T00:00:02") "job1" =
        some { exMeta with status := JobStatus.failed.value, error := some emsg,
                           completed_at := some "2026-01-01T00:00:02" } ∧
      ∃ pre post, emsg = pre ++ toString (3 : Int) ++ post :=
  (claim5_outcome_classification exRunState "job1" exMeta "2026-01-01T00:00:02").2.1 3 (by decide)

/-! ### C8 — result only for completed jobs -/

/-- C8: `get_job_result` answers with an error for a missing record and for
every status other than `completed`, and any success implies the stored
status was `completed`. -/
theorem claim8_result_requires_completed (st : ManagerState) (jid : String) :
    (loadMeta st jid = none → get_job_result st jid = .err ("Job " ++ jid ++ " not found")) ∧
    (∀ m, loadMeta st jid = some m → m.status ≠ JobStatus.completed.value →
      get_job_result st jid = .err ("Job not completed. Current status: " ++ m.status)) ∧
    (∀ v, get_job_result st jid = .ok v →
      ∃ m, loadMeta st jid = some m ∧ m.status = JobStatus.completed.value) := by
  refine ⟨?_, ?_, ?_⟩
  · intro h
    simp [get_job_result, h]
  · intro m hm hs
    simp [get_job_result, hm, hs]
  · intro v hv
    unfold get_job_result at hv
    cases hload : loadMeta st jid with
    | none => rw [hload] at hv; exact absurd hv (by simp)
    | some m =>
        rw [hload] at hv
        refine ⟨m, rfl, ?_⟩
        by_cases hs : m.status = JobStatus.completed.value
        · exact hs
        · simp [hs] at hv

/-- C8 witness: a running job gives the invalid-state error. -/
theorem claim8_witness :
    get_job_result exRunState "job1" =
      .err ("Job not completed. Current status: " ++ exMeta.status) :=
  (claim8_result_requires_completed exRunState "job1").2.1 exMeta rfl (by decide)

/-! ### C4 — public operations must not raise -/

/-- C4 (failing input): `cancel_job` on a live job whose metadata record is
missing or unparsable executes `metadata["status"] = ...` on `None` and lets
the resulting `TypeError` escape instead of returning a tagged error. -/
theorem claim4_cancel_raises :
    (cancel_job corruptLiveState "deadbeef" "2026-01-01T00:00:05").2 =
      .raised "TypeError: NoneType object does not support item assignment" := by
  rfl

/-! ### C1 — id freshness and immediate visibility -/

/-- C1 (counterexample): two distinct submit calls — distinct `uuid4` draws —
that share their first 8 characters return the same job id, because the id is
the truncation `str(uuid.uuid4())[:8]`; ids can therefore be reused. -/
theorem claim1_counterexample :
    ("aaaabbbb-1111-4000-8000-000000000000" : String) ≠
      "aaaabbbb-2222-4000-8000-000000000000" ∧
    (submit_job st0 "aaaabbbb-1111-4000-8000-000000000000" "2026-01-01T00:00:00"
        "s.py" [] none).2.job_id =
      (submit_job (submit_job st0 "aaaabbbb-1111-4000-8000-000000000000"
          "2026-01-01T00:00:00" "s.py" [] none).1
        "aaaabbbb-2222-4000-8000-000000000000" "2026-01-01T00:00:01" "s.py" [] none).2.job_id :=
  ⟨by decide, rfl⟩

/-- C1 (amended): the returned id is the 8-character truncation of the uuid
draw, so submits whose draws differ within the first 8 characters return
distinct ids; and immediately after any `submit_job` returns, `get_job_status`
on the returned id is a success view showing `pending` — never not-found —
(the supervisor's first step may then move it to `running`). -/
theorem claim1_amended_fresh_and_visible (st st' : ManagerState)
    (u1 t1 s1 u2 t2 s2 : String) (a1 a2 : List (String × Option String))
    (n1 n2 : Option String) (h : u1.take 8 ≠ u2.take 8) :
    (submit_job st u1 t1 s1 a1 n1).2.job_id ≠ (submit_job st' u2 t2 s2 a2 n2).2.job_id ∧
    (∀ (s : ManagerState) (u t sc : String) (a : List (String × Option String))
        (n : Option String),
      get_job_status (submit_job s u t sc a n).1 (submit_job s u t sc a n).2.job_id =
        .ok ⟨u.take 8, orElseFalsy n ("job_" ++ u.take 8), JobStatus.pending.value,
          some t, none, none, none⟩) := by
  constructor
  · simpa [submit_job] using h
  · intro s u t sc a n
    simp [submit_job, get_job_status, loadMeta_saveMeta_self, JobStatus.value]

/-- C1 witness: concrete prefix-distinct draws give distinct ids; the first
job is immediately visible as pending; and a submit with the falsy empty
string as `job_name` stores the `job_<id>` fallback name, as
`job_name or f"job_{job_id}"` does. -/
theorem claim1_witness :
    (submit_job st0 "11111111-aaaa-4000-8000-000000000000" "2026-01-01T00:00:00"
        "s.py" [] none).2.job_id ≠
      (submit_job st0 "22222222-aaaa-4000-8000-000000000000" "2026-01-01T00:00:01"
        "s.py" [] none).2.job_id ∧
    get_job_status
        (submit_job st0 "11111111-aaaa-4000-8000-000000000000" "2026-01-01T00:00:00"
          "s.py" [] none).1
        (submit_job st0 "11111111-aaaa-4000-8000-000000000000" "2026-01-01T00:00:00"
          "s.py" [] none).2.job_id =
      .ok ⟨"11111111", "job_11111111", JobStatus.pending.value,
        some "2026-01-01T00:00:00", none, none, none⟩ ∧
    get_job_status
        (submit_job st0 "33333333-aaaa-4000-8000-000000000000" "2026-01-01T00:00:02"
          "s.py" [] (some "")).1
        (submit_job st0 "33333333-aaaa-4000-8000-000000000000" "2026-01-01T00:00:02"
          "s.py" [] (some "")).2.job_id =
      .ok ⟨"33333333", "job_33333333", JobStatus.pending.value,
        some "2026-01-01T00:00:02", none, none, none⟩ := by
  have h := claim1_amended_fresh_and_visible st0 st0
    "11111111-aaaa-4000-8000-000000000000" "2026-01-01T00:00:00" "s.py"
    "22222222-aaaa-4000-8000-000000000000" "2026-01-01T00:00:01" "s.py"
    [] [] none none (by decide)
  exact ⟨h.1,
    h.2 st0 "11111111-aaaa-4000-8000-000000000000" "2026-01-01T00:00:00"
      "s.py" [] none,
    h.2 st0 "33333333-aaaa-4000-8000-000000000000" "2026-01-01T00:00:02"
      "s.py" [] (some "")⟩

/-! ### C3 / C10 — cancellation, the live table, and terminal records -/

/-- C3 (failing trace, evaluated): after the first cancel the record is
terminal — status `cancelled`, `completed_at` set — yet the second cancel, a
subsequent manager operation, changes the record again by overwriting
`completed_at`; `cancel_job` consults only the live table, never the stored
status. -/
theorem claim3_terminal_record_overwritten :
    (loadMeta traceS4 "cafe0123").map (fun m => (m.status, m.completed_at)) =
      some (JobStatus.cancelled.value, some "2026-01-01T00:00:02") ∧
    (loadMeta traceS5 "cafe0123").map (fun m => (m.status, m.completed_at)) =
      some (JobStatus.cancelled.value, some "2026-01-01T00:00:03") ∧
    loadMeta traceS5 "cafe0123" ≠ loadMeta traceS4 "cafe0123" :=
  ⟨rfl, rfl, by decide⟩

/-- Behaviour of `cancel_job` on a live job with a loadable record. -/
theorem cancel_job_spec (st : ManagerState) (jid now : String) (m : Metadata)
    (hrun : jid ∈ st.running) (hload : loadMeta st jid = some m) :
    cancel_job st jid now =
      (saveMeta { st with terms := st.terms ++ [jid] } jid
        { m with status := JobStatus.cancelled.value, completed_at := some now },
       .success ("Job " ++ jid ++ " cancelled")) := by
  simp [cancel_job, hrun, loadMeta_set_terms, hload]

/-- C10: a successful cancel leaves the live table unchanged (only `svFinish`
erases the entry; `submit_job` and `svStart` also never remove entries), so
while the worker has not exited a second cancel on the same id again reports
success, appends a second termination request, and overwrites the stored
`completed_at` with the second clock reading. -/
theorem claim10_cancel_keeps_live_entry (st : ManagerState) (jid t1 t2 : String)
    (m : Metadata) (hrun : jid ∈ st.running) (hload : loadMeta st jid = some m)
    (hne : t1 ≠ t2) :
    (cancel_job st jid t1).2 = .success ("Job " ++ jid ++ " cancelled") ∧
    (cancel_job st jid t1).1.running = st.running ∧
    ((loadMeta (cancel_job st jid t1).1 jid).map
        (fun m1 => (m1.status, m1.completed_at)) =
      some (JobStatus.cancelled.value, some t1)) ∧
    (cancel_job (cancel_job st jid t1).1 jid t2).2 =
      .success ("Job " ++ jid ++ " cancelled") ∧
    (cancel_job (cancel_job st jid t1).1 jid t2).1.terms = st.terms ++ [jid, jid] ∧
    ((loadMeta (cancel_job (cancel_job st jid t1).1 jid t2).1 jid).map
        (fun m2 => (m2.status, m2.completed_at)) =
      some (JobStatus.cancelled.value, some t2)) ∧
    ((loadMeta (cancel_job (cancel_job st jid t1).1 jid t2).1 jid).map
        (fun m2 => m2.completed_at) ≠
      (loadMeta (cancel_job st jid t1).1 jid).map (fun m1 => m1.completed_at)) ∧
    (∀ (s : ManagerState) (u t sc : String) (a : List (String × Option String))
        (n : Option String), (submit_job s u t sc a n).1.running = s.running) ∧
    (∀ (s : ManagerState) (j t : String), (svStart s j t).1.running = s.running) ∧
    (∀ (s : ManagerState) (j : String) (mm : Metadata) (o : LaunchOutcome) (t : String),
      (svFinish s j mm o t).running = s.running.erase j) := by
  have h1 := cancel_job_spec st jid t1 m hrun hload
  have hrun1 : jid ∈ (cancel_job st jid t1).1.running := by
    rw [h1]; simpa [saveMeta] using hrun
  have hload1 : loadMeta (cancel_job st jid t1).1 jid =
      some { m with status := JobStatus.cancelled.value, completed_at := some t1 } := by
    rw [h1]; exact loadMeta_saveMeta_self ..
  have h2 := cancel_job_spec (cancel_job st jid t1).1 jid t2 _ hrun1 hload1
  refine ⟨by rw [h1], by rw [h1]; simp [saveMeta], by rw [hload1]; rfl,
    by rw [h2], ?_, ?_, ?_, ?_, ?_, ?_⟩
  · rw [h2]
    simp [saveMeta]
    rw [h1]
    simp [saveMeta]
  · rw [h2, loadMeta_saveMeta_self]
    rfl
  · rw [h2, loadMeta_saveMeta_self, hload1]
    simpa using Ne.symm hne
  · intro s u t sc a n
    simp [submit_job, saveMeta, ensureDir]
    cases getDir s (u.take 8) <;> rfl
  · intro s j t
    unfold svStart
    cases loadMeta s j <;> rfl
  · intro s j mm o t
    rfl

/-- C10 witness: the double-cancel trace instantiated concretely. -/
theorem claim10_witness :
    (cancel_job traceS3 "cafe0123" "2026-01-01T00:00:02").2 =
      .success ("Job " ++ "cafe0123" ++ " cancelled") ∧
    (cancel_job traceS3 "cafe0123" "2026-01-01T00:00:02").1.running = traceS3.running ∧
    (cancel_job traceS4 "cafe0123" "2026-01-01T00:00:03").2 =
      .success ("Job " ++ "cafe0123" ++ " cancelled") ∧
    ((loadMeta traceS5 "cafe0123").map (fun m2 => m2.completed_at) ≠
      (loadMeta traceS4 "cafe0123").map (fun m1 => m1.completed_at)) := by
  have h := claim10_cancel_keeps_live_entry traceS3 "cafe0123"
    "2026-01-01T00:00:02" "2026-01-01T00:00:03"
    { job_id := "cafe0123", job_name := "job_cafe0123", script := "s.py", args := []
      status := JobStatus.running.value, submitted_at := some "2026-01-01T00:00:00"
      started_at := some "2026-01-01T00:00:01", completed_at := none, error := none }
    (by decide) (by decide) (by decide)
  exact ⟨h.1, h.2.1, h.2.2.2.1, h.2.2.2.2.2.2.1⟩

/-! ### C6 — log tailing -/

/-- C6 (counterexample): the claim quantifies over every `tail` other than 0,
but for a negative `tail` the code returns `lines[-tail:]` — here `tail = -1`
on a 2-line log yields the last 1 line — while "the last `min(tail, n)`
lines" is the empty list for a negative `tail`; the two disagree. -/
theorem claim6_counterexample :
    get_job_log logState "j1" (-1) = .ok ["line b"] 2 ∧
    lastLines (min (-1 : Int) ((["line a", "line b"] : List String).length : Int))
      ["line a", "line b"] = [] ∧
    (["line b"] : List String) ≠ [] :=
  ⟨rfl, rfl, by decide⟩

/-- C6 (amended): with an existing log of `n` lines, `tail = 0` returns all
`n` lines; `tail > 0` returns the last `min(tail, n)` lines; a negative
`tail` instead returns all but the first `min(-tail, n)` lines (Python's
`lines[-tail:]`); `total_lines` is always `n`; without a log file the call
returns the not-found error. -/
theorem claim6_amended_log_tail (st : ManagerState) (jid : String) (tail : Int) :
    (dirLog st jid = none →
      get_job_log st jid tail = .err ("Log not found for job " ++ jid)) ∧
    (∀ lines, dirLog st jid = some lines →
      (tail = 0 → get_job_log st jid tail = .ok lines lines.length) ∧
      (0 < tail →
        get_job_log st jid tail =
          .ok (lastLines (min tail (lines.length : Int)) lines) lines.length ∧
        (lastLines (min tail (lines.length : Int)) lines).length =
          min tail.toNat lines.length) ∧
      (tail < 0 →
        get_job_log st jid tail =
          .ok (lines.drop (min (-tail).toNat lines.length)) lines.length)) := by
  refine ⟨fun h => by simp [get_job_log, h], ?_⟩
  intro lines hlog
  refine ⟨fun h0 => by simp [get_job_log, hlog, h0], ?_, ?_⟩
  · intro hpos
    have hne : tail ≠ 0 := by omega
    have hcount : (if (-tail) < 0 then
        max ((lines.length : Int) + (-tail)) 0 else min (-tail) (lines.length : Int)).toNat =
        ((lines.length : Int) - max (min tail (lines.length : Int)) 0).toNat := by
      rw [if_pos (by omega)]
      omega
    constructor
    · simp only [get_job_log, hlog, if_pos hne, pySliceFrom, lastLines]
      rw [hcount]
    · have hlen := List.length_drop
        (((lines.length : Int) - max (min tail (lines.length : Int)) 0).toNat) lines
      simp only [lastLines, hlen]
      omega
  · intro hneg
    have hne : tail ≠ 0 := by omega
    have hcount : (if (-tail) < 0 then
        max ((lines.length : Int) + (-tail)) 0 else min (-tail) (lines.length : Int)).toNat =
        min (-tail).toNat lines.length := by
      rw [if_neg (by omega)]
      omega
    simp only [get_job_log, hlog, if_pos hne, pySliceFrom]
    rw [hcount]

/-- C6 witness: `tail = 1` on the two-line log returns the last line. -/
theorem claim6_witness :
    get_job_log logState "j1" 1 = .ok ["line b"] 2 := by
  have h := ((claim6_amended_log_tail logState "j1" 1).2 ["line a", "line b"]
    rfl).2.1 (by decide)
  exact h.1

/-! ### C7 — result aggregation for a completed job -/

theorem parseAll_ok (files : List ResultFile)
    (h : ∀ f ∈ files, ∃ v, f.parsed = .ok v) :
    parseAll files = .ok (files.map fun f => (f.stem, parsedOr f)) := by
  induction files with
  | nil => rfl
  | cons f fs ih =>
      obtain ⟨v, hv⟩ := h f (by simp)
      have hrest := ih (fun g hg => h g (by simp [hg]))
      simp [parseAll, hv, hrest, parsedOr]

theorem parseAll_error (files : List ResultFile)
    (h : ∃ f ∈ files, ∃ msg, f.parsed = .failed msg) :
    ∃ e, parseAll files = .error e := by
  induction files with
  | nil => simp at h
  | cons f fs ih =>
      cases hp : f.parsed with
      | failed msg => exact ⟨msg, by simp [parseAll, hp]⟩
      | ok v =>
          obtain ⟨g, hg, msg, hmsg⟩ := h
          rcases List.mem_cons.mp hg with rfl | hg'
          · rw [hp] at hmsg; cases hmsg
          · obtain ⟨e, he⟩ := ih ⟨g, hg', msg, hmsg⟩
            exact ⟨e, by simp [parseAll, hp, he]⟩

/-- C7: for a job whose record is loadable and completed, `get_job_result`
errors when the results directory is missing or holds no `*.json` files;
when every file parses it returns the aggregate keyed by file stem (name
without extension); when any file fails to parse the whole call returns an
error carrying no partial aggregate. -/
theorem claim7_result_aggregation (st : ManagerState) (jid : String) (m : Metadata)
    (hload : loadMeta st jid = some m) (hdone : m.status = JobStatus.completed.value) :
    (dirResults st jid = none → get_job_result st jid = .err "Results directory not found") ∧
    (dirResults st jid = some [] →
      get_job_result st jid = .err "No result files found in output directory") ∧
    (∀ files, dirResults st jid = some files → files ≠ [] →
      ((∀ f ∈ files, ∃ v, f.parsed = .ok v) →
        get_job_result st jid =
          .ok ⟨resultsPath st jid,
            files.map (fun f => resultsPath st jid ++ "/" ++ f.stem ++ ".json"),
            files.map (fun f => (f.stem, parsedOr f))⟩) ∧
      ((∃ f ∈ files, ∃ msg, f.parsed = .failed msg) →
        ∃ e, get_job_result st jid = .err ("Failed to parse output JSON: " ++ e))) := by
  refine ⟨?_, ?_, ?_⟩
  · intro h
    simp [get_job_result, hload, hdone, h]
  · intro h
    simp [get_job_result, hload, hdone, h]
  · intro files hfiles hne
    have hempty : files.isEmpty = false := by
      cases files with
      | nil => cases hne rfl
      | cons f fs => rfl
    constructor
    · intro hall
      have hp := parseAll_ok files hall
      simp [get_job_result, hload, hdone, hfiles, hempty, hp]
    · intro hex
      obtain ⟨e, he⟩ := parseAll_error files hex
      exact ⟨e, by simp [get_job_result, hload, hdone, hfiles, hempty, he]⟩

/-- C7 witness: the aggregate maps the stem `out` to the parsed contents. -/
theorem claim7_witness :
    get_job_result exDoneState "job1" =
      .ok ⟨"/jobs/job1/results", ["/jobs/job1/results/out.json"],
        [("out", .obj [("x", .num 1)])]⟩ := by
  have h := ((claim7_result_aggregation exDoneState "job1" exDoneMeta rfl rfl).2.2
    [⟨"out", .ok (.obj [("x", .num 1)])⟩] rfl (by simp)).1
    (by intro f hf
        simp only [List.mem_singleton] at hf
        exact ⟨.obj [("x", .num 1)], by rw [hf]⟩)
  exact h

/-! ### Lemmas about the string order and timestamps -/

theorem char_eq_of_toNat_eq {a b : Char} (h : a.toNat = b.toNat) : a = b := by
  apply Char.ext
  apply UInt32.ext
  exact h

theorem pyCmp_eq_iff (as bs : List Char) : pyCmp as bs = .eq ↔ as = bs := by
  induction as generalizing bs with
  | nil => cases bs <;> simp [pyCmp]
  | cons a as ih =>
      cases bs with
      | nil => simp [pyCmp]
      | cons b bs =>
          by_cases h1 : a.toNat < b.toNat
          · have hne : a ≠ b := by intro hab; subst hab; omega
            simp [pyCmp, h1, hne]
          · by_cases h2 : b.toNat < a.toNat
            · have hne : a ≠ b := by intro hab; subst hab; omega
              simp [pyCmp, h1, h2, hne]
            · have heq : a = b := char_eq_of_toNat_eq (by omega)
              subst heq
              simp [pyCmp, h1, h2, ih]

theorem pyCmp_single (c : Char) (r1 r2 : List Char) :
    pyCmp (c :: r1) (c :: r2) = pyCmp r1 r2 := by
  simp [pyCmp]

end EsmfoldJobs
